import Mathlib

/-!
Verification development for the RAG-Enterprise backend core:
shallow embedding of the retrieval gap-filtering heuristic
(`backend/rag_pipeline.py`), the per-user conversation memory
(`backend/app.py`), the embeddings device-fallback state machine
(`backend/embeddings_service.py`) and the vector-store connector
(`backend/qdrant_connector.py`), together with theorems about them.

Similarity scores and timestamps are modelled as rationals (`ℚ`):
the Python code compares IEEE doubles, but every property of interest
here is about order comparisons against constants, which the rational
model captures exactly.
-/

/-- Metadata payload attached to each indexed point / search hit
(`rag_pipeline.py`, `index_chunks` lines 170-181 and `query`). -/
structure Metadata where
  document_id : String
  filename : String
  chunk_index : Nat
  text : String
deriving DecidableEq, Repr

/-- A search hit as returned by `QdrantConnector.search`
(`qdrant_connector.py` lines 193-199): point id, similarity score,
metadata payload.  Point ids are modelled as naturals (see `mkUuid`). -/
structure Hit where
  id : Nat
  similarity : ℚ
  metadata : Metadata
deriving DecidableEq, Repr

namespace RAGPipeline

/-- Gap filtering step of `RAGPipeline.query`
(`rag_pipeline.py` lines 251-274), as a function of the retrieved,
descending-sorted hit list:
if there are at least two hits, let `gap = first_score - second_score`;
when `first_score >= 0.65` and `gap > 0.15`, keep only hits with
similarity `>= 0.40`, but if fewer than 3 hits survive, fall back to the
top 3 of the original list; otherwise return the list unchanged. -/
def gapFilterDocs (retrieved_docs : List Hit) : List Hit :=
  match retrieved_docs with
  | d0 :: d1 :: _ =>
    let first_score := d0.similarity
    let second_score := d1.similarity
    let gap := first_score - second_score
    if 0.65 ≤ first_score ∧ 0.15 < gap then
      let relevant_docs := retrieved_docs.filter (fun doc => 0.40 ≤ doc.similarity)
      if relevant_docs.length < 3 then retrieved_docs.take 3 else relevant_docs
    else retrieved_docs
  | _ => retrieved_docs

end RAGPipeline

/-- A hit list sorted by descending similarity, as `QdrantConnector.search`
returns it (Qdrant orders results by score). -/
def SortedDesc (hits : List Hit) : Prop :=
  hits.Pairwise (fun a b => b.similarity ≤ a.similarity)

/-- A sample hit with the given similarity score and id, used in the
concrete scenarios below. -/
def hitOf (s : ℚ) (n : Nat) : Hit :=
  { id := n, similarity := s, metadata := ⟨"d", "f", n, "t"⟩ }

/-- C1 counterexample: the claimed characterisation of gap filtering fails
on the code in two ways.  First, on the descending-sorted list with scores
`0.70, 0.45, 0.30` the dominance (`0.70 > 0.65`) and gap
(`0.25 > 0.15`) conditions hold and `0.30 < 0.40` lies below the
secondary cutoff, yet the code keeps all three hits (its keep-at-least-3
safety net re-adds the dropped hit).  Second, on scores
`0.65, 0.45, 0.44, 0.43, 0.30` the top score does not strictly exceed
`0.65`, so the claim says every hit is kept, yet the code (which tests
`first_score >= 0.65`) drops the `0.30` hit. -/
theorem gapFilterDocs_claim_false :
    (SortedDesc [hitOf 0.70 0, hitOf 0.45 1, hitOf 0.30 2] ∧
      (0.65 : ℚ) < 0.70 ∧ (0.15 : ℚ) < 0.70 - 0.45 ∧ (0.30 : ℚ) < 0.40 ∧
      RAGPipeline.gapFilterDocs [hitOf 0.70 0, hitOf 0.45 1, hitOf 0.30 2] =
        [hitOf 0.70 0, hitOf 0.45 1, hitOf 0.30 2]) ∧
    (SortedDesc [hitOf 0.65 0, hitOf 0.45 1, hitOf 0.44 2, hitOf 0.43 3, hitOf 0.30 4] ∧
      ¬ (0.65 : ℚ) < 0.65 ∧
      RAGPipeline.gapFilterDocs
          [hitOf 0.65 0, hitOf 0.45 1, hitOf 0.44 2, hitOf 0.43 3, hitOf 0.30 4] ≠
        [hitOf 0.65 0, hitOf 0.45 1, hitOf 0.44 2, hitOf 0.43 3, hitOf 0.30 4]) := by
  refine ⟨⟨?_, by norm_num, by norm_num, by norm_num, ?_⟩, ⟨?_, by norm_num, ?_⟩⟩
  · norm_num [SortedDesc, hitOf]
  · norm_num [RAGPipeline.gapFilterDocs, hitOf]
  · norm_num [SortedDesc, hitOf]
  · norm_num [RAGPipeline.gapFilterDocs, hitOf]

/-- C1 amended: for every hit list with at least two hits, letting
`s1, s2` be the first two scores, the code keeps only the hits with
similarity at least the secondary cutoff `0.40` when `s1 ≥ 0.65` and
`s1 - s2 > 0.15`, except that when fewer than 3 hits meet the cutoff the
top 3 hits of the original list are kept instead; otherwise all hits are
kept unchanged.  In particular two hits scoring `0.70` and `0.50` both
survive. -/
theorem gapFilterDocs_amended (d0 d1 : Hit) (rest : List Hit) :
    (RAGPipeline.gapFilterDocs (d0 :: d1 :: rest) =
      if 0.65 ≤ d0.similarity ∧ 0.15 < d0.similarity - d1.similarity then
        (if ((d0 :: d1 :: rest).filter (fun doc => 0.40 ≤ doc.similarity)).length < 3 then
          (d0 :: d1 :: rest).take 3
        else
          (d0 :: d1 :: rest).filter (fun doc => 0.40 ≤ doc.similarity))
      else d0 :: d1 :: rest) ∧
    RAGPipeline.gapFilterDocs [hitOf 0.70 0, hitOf 0.50 1] =
      [hitOf 0.70 0, hitOf 0.50 1] := by
  constructor
  · rfl
  · norm_num [RAGPipeline.gapFilterDocs, hitOf]

/-- C2: gap filtering is the identity on lists with fewer than two hits,
and maps non-empty hit lists to non-empty hit lists. -/
theorem gapFilterDocs_short_id_and_nonempty :
    (∀ hits : List Hit, hits.length < 2 → RAGPipeline.gapFilterDocs hits = hits) ∧
    (∀ hits : List Hit, hits ≠ [] → RAGPipeline.gapFilterDocs hits ≠ []) := by
  constructor
  · intro hits h
    match hits, h with
    | [], _ => rfl
    | [d], _ => rfl
  · intro hits hne
    match hits with
    | [d] => simp [RAGPipeline.gapFilterDocs]
    | d0 :: d1 :: rest =>
      simp only [RAGPipeline.gapFilterDocs]
      split
      · split
        · simp
        · rename_i hcond hlen
          intro hnil
          rw [hnil] at hlen
          simp at hlen
      · simp

/-- C2 witness: on the concrete one-element list gap filtering is the
identity, and on a concrete two-element list the output is non-empty. -/
theorem gapFilterDocs_short_id_and_nonempty_witness :
    RAGPipeline.gapFilterDocs [hitOf 0.9 0] = [hitOf 0.9 0] ∧
    RAGPipeline.gapFilterDocs [hitOf 0.70 0, hitOf 0.50 1] ≠ [] :=
  ⟨gapFilterDocs_short_id_and_nonempty.1 [hitOf 0.9 0] (by norm_num),
   gapFilterDocs_short_id_and_nonempty.2 [hitOf 0.70 0, hitOf 0.50 1] (by simp)⟩

/-- One conversation exchange as stored by `query_rag`
(`app.py` lines 826-829): the user question and the assistant answer. -/
structure Turn where
  user : String
  assistant : String
deriving DecidableEq, Repr

/-- The last `n` elements of a list, the model of the Python slice
`l[-n:]`. -/
def lastN (n : Nat) (l : List α) : List α :=
  l.drop (l.length - n)

/-- The memory update performed at the end of `query_rag`
(`app.py` lines 826-833): append the new exchange, then, if the history
now exceeds 20 exchanges, keep only the last 20. -/
def appendTurn (conversation_history : List Turn) (t : Turn) : List Turn :=
  let h := conversation_history ++ [t]
  if 20 < h.length then h.drop (h.length - 20) else h

/-- One `query_rag` request by user `uidturn.1` storing exchange
`uidturn.2`: the global `user_conversations` map (`app.py` lines 804-833,
with absent users read as `[]` per the initialisation on line 806) is
updated at that user's entry only. -/
def queryMemoryStep (conv : String → List Turn) (uidturn : String × Turn) :
    String → List Turn :=
  fun v => if v = uidturn.1 then appendTurn (conv uidturn.1) uidturn.2 else conv v

/-- The `user_conversations` map after a sequence of requests, starting
from the empty map (`app.py` line 188). -/
def runConversations (ops : List (String × Turn)) : String → List Turn :=
  ops.foldl queryMemoryStep (fun _ => [])

/-- The exchanges appended for user `u`, in append order. -/
def userTurns (u : String) (ops : List (String × Turn)) : List Turn :=
  (ops.filter (fun p => p.1 = u)).map (fun p => p.2)

theorem appendTurn_lastN (xs : List Turn) (t : Turn) :
    appendTurn (lastN 20 xs) t = lastN 20 (xs ++ [t]) := by
  simp only [appendTurn, lastN, List.length_append, List.length_drop,
    List.length_singleton]
  by_cases hlen : xs.length < 20
  · rw [if_neg (by omega)]
    have h0 : xs.length - 20 = 0 := by omega
    have h1 : xs.length + 1 - 20 = 0 := by omega
    simp [h0, h1]
  · rw [if_pos (by omega)]
    have h2 : xs.length - (xs.length - 20) + 1 - 20 = 1 := by omega
    rw [h2]
    rw [List.drop_append_of_le_length (by simp; omega)]
    rw [List.drop_drop]
    rw [List.drop_append_of_le_length (by omega)]
    have h3 : xs.length - 20 + 1 = xs.length + 1 - 20 := by omega
    rw [h3]

/-- C3: after any sequence of `query_rag` requests, each user's stored
conversation history is exactly the last 20 exchanges appended for that
user, in append order; in particular it never holds more than 20
exchanges, and the 21st append evicts the oldest one. -/
theorem conversationMemory_last20 (ops : List (String × Turn)) (u : String) :
    runConversations ops u = lastN 20 (userTurns u ops) ∧
    (runConversations ops u).length ≤ 20 := by
  have main : runConversations ops u = lastN 20 (userTurns u ops) := by
    induction ops using List.reverseRecOn with
    | nil => simp [runConversations, userTurns, lastN]
    | append_singleton ops op ih =>
      have hrun : runConversations (ops ++ [op]) =
          queryMemoryStep (runConversations ops) op := by
        simp [runConversations, List.foldl_append]
      rw [hrun]
      simp only [queryMemoryStep]
      by_cases hu : u = op.1
      · rw [if_pos hu]
        have hturns : userTurns u (ops ++ [op]) = userTurns u ops ++ [op.2] := by
          simp [userTurns, List.filter_append, hu]
        rw [hturns, ← hu, ih, appendTurn_lastN]
      · rw [if_neg hu]
        have hturns : userTurns u (ops ++ [op]) = userTurns u ops := by
          simp only [userTurns, List.filter_append]
          have : List.filter (fun p => decide (p.1 = u)) [op] = [] := by
            simp only [List.filter_cons]
            rw [if_neg (by simpa using fun h => hu h.symm)]
            rfl
          rw [this]
          simp
        rw [hturns, ih]
  refine ⟨main, ?_⟩
  rw [main]
  simp only [lastN, List.length_drop]
  omega

/-- The body of the history section built by `RAGPipeline._format_history`
(`rag_pipeline.py` lines 96-100): one numbered line per turn (numbering
starts at 1 and counts every turn), containing the turn's user question
only, and nothing for turns whose user question is empty. -/
def historyItems : List Turn → Nat → String
  | [], _ => ""
  | msg :: rest, i =>
      (if msg.user ≠ "" then toString i ++ ". " ++ msg.user ++ "\n" else "") ++
      historyItems rest (i + 1)

/-- `RAGPipeline._format_history` (`rag_pipeline.py` lines 85-102):
empty string for an empty (or absent) history, otherwise a header, one
line per user question of the last 5 turns, and a trailing newline. -/
def formatHistory (history : List Turn) : String :=
  if history.length = 0 then ""
  else
    "USER\x27S PREVIOUS QUESTIONS (for context):\n" ++
      historyItems (lastN 5 history) 1 ++ "\n"

theorem historyItems_congr :
    ∀ (l1 l2 : List Turn) (i : Nat),
      l1.map Turn.user = l2.map Turn.user → historyItems l1 i = historyItems l2 i := by
  intro l1
  induction l1 with
  | nil =>
    intro l2 i h
    cases l2 with
    | nil => rfl
    | cons b bs => simp at h
  | cons a as ih =>
    intro l2 i h
    cases l2 with
    | nil => simp at h
    | cons b bs =>
      simp only [List.map_cons, List.cons.injEq] at h
      simp only [historyItems]
      rw [h.1, ih bs (i + 1) h.2]

/-- C9: the history section of the generation prompt is empty for an
empty history, and otherwise depends only on the user questions of the
last 5 turns — in particular no prior assistant answer ever reaches the
prompt. -/
theorem formatHistory_last5_users_only :
    formatHistory [] = "" ∧
    ∀ h1 h2 : List Turn,
      (lastN 5 h1).map Turn.user = (lastN 5 h2).map Turn.user →
      formatHistory h1 = formatHistory h2 := by
  refine ⟨rfl, ?_⟩
  intro h1 h2 hmap
  have hlen : (lastN 5 h1).length = (lastN 5 h2).length := by
    have := congrArg List.length hmap
    simpa using this
  simp only [lastN, List.length_drop] at hlen
  unfold formatHistory
  by_cases he : h1.length = 0
  · rw [if_pos he, if_pos (by omega)]
  · rw [if_neg he, if_neg (by omega)]
    rw [historyItems_congr (lastN 5 h1) (lastN 5 h2) 1 hmap]

/-- C9 witness: two concrete one-turn histories with the same user
question but different assistant answers produce the same history
section. -/
theorem formatHistory_last5_users_only_witness :
    formatHistory [] = "" ∧
    formatHistory [⟨"q", "answer one"⟩] = formatHistory [⟨"q", "answer two"⟩] :=
  ⟨formatHistory_last5_users_only.1,
   formatHistory_last5_users_only.2 [⟨"q", "answer one"⟩] [⟨"q", "answer two"⟩] rfl⟩

/-- A source entry returned by `RAGPipeline.query`
(`rag_pipeline.py` lines 319-326). -/
structure Source where
  filename : String
  document_id : String
  similarity_score : ℚ
  chunk_index : Nat
  text : String
deriving DecidableEq, Repr

/-- Round a rational to the nearest integer, ties to even: the model of
Python's `round` applied to an exact value (IEEE representation error of
the inputs is abstracted away). -/
def roundHalfEven (q : ℚ) : ℤ :=
  let f := ⌊q⌋
  if q - f < 1 / 2 then f
  else if 1 / 2 < q - f then f + 1
  else if f % 2 = 0 then f else f + 1

/-- Python's `round(x, 3)` on an exact rational. -/
def round3 (q : ℚ) : ℚ :=
  (roundHalfEven (q * 1000) : ℚ) / 1000

/-- The source entry built from a hit (`rag_pipeline.py` lines 320-326);
the stored score is rounded to 3 decimals. -/
def sourceOfHit (doc : Hit) : Source :=
  { filename := doc.metadata.filename
    document_id := doc.metadata.document_id
    similarity_score := round3 doc.similarity
    chunk_index := doc.metadata.chunk_index
    text := doc.metadata.text }

/-- One step of the source-deduplication loop
(`rag_pipeline.py` lines 313-326): `sources_dict` is modelled as an
insertion-ordered association list; a document id already present is
overwritten in place when the new hit's (raw) similarity beats the
stored (rounded) score, otherwise a new entry is appended. -/
def updateSources (acc : List Source) (doc : Hit) : List Source :=
  if acc.any (fun t => t.document_id = doc.metadata.document_id) then
    acc.map (fun t =>
      if t.document_id = doc.metadata.document_id ∧
          t.similarity_score < doc.similarity then
        sourceOfHit doc
      else t)
  else acc ++ [sourceOfHit doc]

/-- Stable insertion into a descending-sorted list: an element is placed
before the first strictly-smaller key, after equal keys inserted
earlier. -/
def insertDesc (s : Source) : List Source → List Source
  | [] => [s]
  | t :: ts =>
    if t.similarity_score ≤ s.similarity_score then s :: t :: ts
    else t :: insertDesc s ts

/-- The model of `sources.sort(key=..., reverse=True)`
(`rag_pipeline.py` line 330): stable sort by descending
`similarity_score`. -/
def sortBySimilarityDesc : List Source → List Source
  | [] => []
  | s :: ss => insertDesc s (sortBySimilarityDesc ss)

/-- One context block (`rag_pipeline.py` lines 284-286).  The Python
code renders the score as a two-decimal percentage; the numeric
rendering is abstracted to `toString`. -/
def contextEntry (i : Nat) (doc : Hit) : String :=
  "[" ++ toString i ++ "] (" ++ doc.metadata.filename ++ " - relevance: " ++
    toString doc.similarity ++ ")\n" ++ doc.metadata.text

/-- The context blocks for the surviving hits, numbered from 1. -/
def contextParts : List Hit → Nat → List String
  | [], _ => []
  | d :: ds, i => contextEntry i d :: contextParts ds (i + 1)

/-- The context string (`rag_pipeline.py` line 288). -/
def buildContext (docs : List Hit) : String :=
  String.intercalate "\n\n---\n\n" (contextParts docs 1)

/-- The prompt built from `RAGPipeline._get_prompt_template`
(`rag_pipeline.py` lines 64-82) by `qa_prompt.format`
(lines 297-301). -/
def promptFor (history_section context question : String) : String :=
  "You are a precise research assistant. Your task is to find and extract specific information from the provided documents.\n\nINSTRUCTIONS:\n1. Read ALL document chunks carefully - information may be spread across multiple chunks\n2. Extract and combine relevant information from different chunks when needed\n3. Quote specific names, dates, numbers, and facts exactly as they appear\n4. If you find partial information, provide what you found and note what\x27s missing\n5. Only say \"I don\x27t have this information\" if NONE of the chunks contain relevant data\n\n" ++
    history_section ++ "\n\nDOCUMENTS:\n" ++ context ++ "\n\nQUESTION: " ++
    question ++ "\n\nANSWER (be specific, quote facts from documents):"

/-- The external collaborators of `RAGPipeline.query`: the embeddings
service (`embed_text`, `None` modelling its defensive null check), the
vector store (`search query_vector top_k score_threshold`, already
filtered and sorted by Qdrant), and the LLM. -/
structure QueryEnv where
  embed_text : String → Option (List ℚ)
  search : List ℚ → Nat → ℚ → List Hit
  llm : String → String

/-- The observable outcome of `RAGPipeline.query`: the returned answer
and source list, plus the list of prompts sent to the LLM (so that
"the LLM is never invoked" is expressible). -/
structure QueryResult where
  answer : String
  sources : List Source
  llmCalls : List String
deriving DecidableEq, Repr

namespace RAGPipeline

/-- The fixed answer returned when Qdrant returns no hit above the
relevance threshold (`rag_pipeline.py` line 249). -/
def noResultsAnswer : String :=
  "I haven\x27t found relevant documents to answer this question."

/-- `RAGPipeline.query` (`rag_pipeline.py` lines 198-334):
embed the query, search Qdrant with the base relevance threshold,
short-circuit when nothing is retrieved, apply gap filtering, build the
context and history sections, call the LLM, and return the answer with
deduplicated sources sorted by descending similarity.  `temperature` is
accepted (defaulting to `0.7` in Python) but never used: the LLM was
constructed once with temperature `0.0` (lines 49-53). -/
def query (env : QueryEnv) (relevance_threshold : ℚ) (queryText : String)
    (top_k : Nat) (temperature : ℚ) (history : List Turn) : QueryResult :=
  match env.embed_text queryText with
  | none =>
    { answer := "Error during query processing", sources := [], llmCalls := [] }
  | some query_embedding =>
    let retrieved_docs := env.search query_embedding top_k relevance_threshold
    if retrieved_docs.isEmpty then
      { answer := noResultsAnswer, sources := [], llmCalls := [] }
    else
      let relevant_docs := gapFilterDocs retrieved_docs
      let context := buildContext relevant_docs
      let history_section := formatHistory history
      let prompt := promptFor history_section context queryText
      let answer := env.llm prompt
      let sources := sortBySimilarityDesc (relevant_docs.foldl updateSources [])
      { answer := answer, sources := sources, llmCalls := [prompt] }

end RAGPipeline

/-- C4: when the vector-store search returns zero hits above the base
relevance threshold, `query` returns the fixed "no relevant documents"
answer with an empty source list, and the LLM is never invoked. -/
theorem query_no_hits_short_circuit (env : QueryEnv) (thr : ℚ) (q : String)
    (k : Nat) (t : ℚ) (hist : List Turn) (v : List ℚ)
    (hemb : env.embed_text q = some v)
    (hsearch : env.search v k thr = []) :
    RAGPipeline.query env thr q k t hist =
      { answer := RAGPipeline.noResultsAnswer, sources := [], llmCalls := [] } := by
  unfold RAGPipeline.query
  rw [hemb]
  simp [hsearch]

/-- C4 witness: a concrete environment whose search returns no hits
yields the fixed answer, no sources, and no LLM call. -/
theorem query_no_hits_short_circuit_witness :
    RAGPipeline.query
        ⟨fun _ => some [1, 0], fun _ _ _ => [], fun _ => "generated"⟩
        0.35 "what is in the docs" 10 0.7 [] =
      { answer := RAGPipeline.noResultsAnswer, sources := [], llmCalls := [] } :=
  query_no_hits_short_circuit
    ⟨fun _ => some [1, 0], fun _ _ _ => [], fun _ => "generated"⟩
    0.35 "what is in the docs" 10 0.7 [] [1, 0] rfl rfl

/-- C10: the answer and sources returned by `query` are independent of
the `temperature` argument — the parameter is accepted but never used,
the LLM having been constructed once with temperature 0.0. -/
theorem query_independent_of_temperature (env : QueryEnv) (thr : ℚ)
    (q : String) (k : Nat) (hist : List Turn) (t1 t2 : ℚ) :
    RAGPipeline.query env thr q k t1 hist =
      RAGPipeline.query env thr q k t2 hist := rfl

/-- Compute device of the embeddings service
(`embeddings_service.py`): `cuda` is the accelerated device, `cpu` the
fallback. -/
inductive Device where
  | cuda
  | cpu
deriving DecidableEq, Repr

/-- Device-fallback state of `EmbeddingsService`
(`embeddings_service.py` lines 107-111): current device, the device
requested at construction, the timestamp of the last CPU fallback, and
whether CUDA is available at all. -/
structure EmbState where
  device : Device
  original_device : Device
  last_fallback_time : ℚ
  cuda_available : Bool
deriving DecidableEq, Repr

/-- `EmbeddingsService.GPU_RETRY_INTERVAL` (`embeddings_service.py`
line 92): seconds to wait before retrying the GPU after a fallback. -/
def GPU_RETRY_INTERVAL : ℚ := 60

/-- Outcome of `EmbeddingsService._maybe_retry_gpu`: the updated state,
whether a GPU reload was attempted (i.e. the
`SentenceTransformer(..., device="cuda")` call on line 159 was reached),
and the function's boolean return value (`True` only when the GPU was
restored). -/
structure RetryOutcome where
  state : EmbState
  attempted : Bool
  restored : Bool
deriving DecidableEq, Repr

/-- `EmbeddingsService._maybe_retry_gpu` (`embeddings_service.py`
lines 150-168): only when the service fell back to CPU from an original
CUDA device, CUDA is available, and more than `GPU_RETRY_INTERVAL`
seconds passed since the fallback, attempt to reload the model on the
GPU; on success switch the device back to `cuda`, on failure reload the
CPU model and reset the fallback timestamp to the current time.
`gpuReloadOk` models whether the GPU reload on line 159 would succeed;
`now` models `time.time()`. -/
def maybeRetryGpu (st : EmbState) (now : ℚ) (gpuReloadOk : Bool) : RetryOutcome :=
  if st.device = Device.cpu ∧ st.original_device = Device.cuda ∧ st.cuda_available then
    if GPU_RETRY_INTERVAL < now - st.last_fallback_time then
      if gpuReloadOk then
        ⟨{ st with device := Device.cuda }, true, true⟩
      else
        ⟨{ st with last_fallback_time := now }, true, false⟩
    else ⟨st, false, false⟩
  else ⟨st, false, false⟩

/-- `EmbeddingsService._fallback_to_cpu` (`embeddings_service.py`
lines 212-226): when not already on CPU, reload the model on CPU, switch
the device to `cpu` and record the fallback timestamp. -/
def fallbackToCpu (st : EmbState) (now : ℚ) : EmbState :=
  if st.device ≠ Device.cpu then
    { st with device := Device.cpu, last_fallback_time := now }
  else st

/-- Outcome of one `model.encode` call: a vector, a `RuntimeError`
whose message mentions CUDA or out-of-memory (the device-resource
class), or any other failure. -/
inductive ComputeResult (α : Type) where
  | ok (v : α)
  | cudaError
  | otherError (msg : String)
deriving DecidableEq, Repr

/-- An error surfaced to the caller of `embed_text` / `embed_texts`. -/
inductive EmbedError where
  | deviceError
  | other (msg : String)
deriving DecidableEq, Repr

/-- Observable outcome of one `embed_text` call: the final service
state, the value returned or error raised, the devices on which
`model.encode` ran (in order), and how many GPU reload attempts
`_maybe_retry_gpu` made. -/
structure EmbedResult where
  state : EmbState
  result : Except EmbedError (List ℚ)
  encodeCalls : List Device
  gpuReloadAttempts : Nat

/-- `EmbeddingsService.embed_text` (`embeddings_service.py`
lines 171-209): first give `_maybe_retry_gpu` a chance to restore the
GPU, then encode; on a CUDA/out-of-memory `RuntimeError`, fall back to
CPU and retry the same call exactly once, letting any error of the
retry propagate; any other failure propagates immediately.  `encode`
models `model.encode` as a function of the device the model currently
lives on. -/
def embed_text (st : EmbState) (now : ℚ) (gpuReloadOk : Bool)
    (encode : Device → ComputeResult (List ℚ)) : EmbedResult :=
  let r := maybeRetryGpu st now gpuReloadOk
  let st1 := r.state
  let attempts := if r.attempted then 1 else 0
  match encode st1.device with
  | .ok v => ⟨st1, .ok v, [st1.device], attempts⟩
  | .cudaError =>
    let st2 := fallbackToCpu st1 now
    match encode st2.device with
    | .ok v => ⟨st2, .ok v, [st1.device, st2.device], attempts⟩
    | .cudaError => ⟨st2, .error .deviceError, [st1.device, st2.device], attempts⟩
    | .otherError m => ⟨st2, .error (.other m), [st1.device, st2.device], attempts⟩
  | .otherError m => ⟨st1, .error (.other m), [st1.device], attempts⟩

/-- Observable outcome of one `embed_texts` call; `encodeCalls` records
the device and batch size of each `model.encode` invocation. -/
structure EmbedTextsResult where
  state : EmbState
  result : Except EmbedError (List (List ℚ))
  encodeCalls : List (Device × Nat)
  gpuReloadAttempts : Nat

/-- `EmbeddingsService.embed_texts` (`embeddings_service.py`
lines 228-295): like `embed_text`, with the batch size defaulting to the
per-model GPU or CPU batch size according to the current device
(line 244), and the CPU batch size used for the one retry after a CUDA
fallback (lines 278-287). -/
def embed_texts (st : EmbState) (now : ℚ) (gpuReloadOk : Bool)
    (batch_size : Option Nat) (gpu_batch_size cpu_batch_size : Nat)
    (encode : Device → Nat → ComputeResult (List (List ℚ))) : EmbedTextsResult :=
  let r := maybeRetryGpu st now gpuReloadOk
  let st1 := r.state
  let attempts := if r.attempted then 1 else 0
  let bs := match batch_size with
    | some b => b
    | none => if st1.device = Device.cuda then gpu_batch_size else cpu_batch_size
  match encode st1.device bs with
  | .ok vs => ⟨st1, .ok vs, [(st1.device, bs)], attempts⟩
  | .cudaError =>
    let st2 := fallbackToCpu st1 now
    let cpu_batch := cpu_batch_size
    match encode st2.device cpu_batch with
    | .ok vs => ⟨st2, .ok vs, [(st1.device, bs), (st2.device, cpu_batch)], attempts⟩
    | .cudaError =>
      ⟨st2, .error .deviceError, [(st1.device, bs), (st2.device, cpu_batch)], attempts⟩
    | .otherError m =>
      ⟨st2, .error (.other m), [(st1.device, bs), (st2.device, cpu_batch)], attempts⟩
  | .otherError m => ⟨st1, .error (.other m), [(st1.device, bs)], attempts⟩

/-- C5: while on the accelerated device, a CUDA/out-of-memory failure of
the compute call makes the gateway transition to the CPU fallback state,
record the fallback timestamp, and retry the same call exactly once on
the CPU, so the caller gets a vector unless the retry also fails; a
success returns immediately, and a failure for any non-device reason is
propagated with no fallback, no state change and no retry.  The same
holds for the batch call, which in addition retries with the CPU batch
size. -/
theorem embed_fallback_retries_once (st : EmbState) (now : ℚ) (gpuReloadOk : Bool)
    (encode : Device → ComputeResult (List ℚ))
    (encodeB : Device → Nat → ComputeResult (List (List ℚ)))
    (batch_size : Option Nat) (gbs cbs : Nat)
    (hacc : st.device = Device.cuda) :
    (encode Device.cuda = ComputeResult.cudaError →
      (embed_text st now gpuReloadOk encode).state.device = Device.cpu ∧
      (embed_text st now gpuReloadOk encode).state.last_fallback_time = now ∧
      (embed_text st now gpuReloadOk encode).encodeCalls = [Device.cuda, Device.cpu] ∧
      (∀ v, encode Device.cpu = ComputeResult.ok v →
        (embed_text st now gpuReloadOk encode).result = Except.ok v) ∧
      (encode Device.cpu = ComputeResult.cudaError →
        (embed_text st now gpuReloadOk encode).result =
          Except.error EmbedError.deviceError)) ∧
    (∀ v, encode Device.cuda = ComputeResult.ok v →
      embed_text st now gpuReloadOk encode = ⟨st, Except.ok v, [Device.cuda], 0⟩) ∧
    (∀ m, encode Device.cuda = ComputeResult.otherError m →
      embed_text st now gpuReloadOk encode =
        ⟨st, Except.error (EmbedError.other m), [Device.cuda], 0⟩) ∧
    (∀ bs, (batch_size = some bs ∨ (batch_size = none ∧ bs = gbs)) →
      encodeB Device.cuda bs = ComputeResult.cudaError →
      (embed_texts st now gpuReloadOk batch_size gbs cbs encodeB).state.device =
        Device.cpu ∧
      (embed_texts st now gpuReloadOk batch_size gbs cbs encodeB).state.last_fallback_time =
        now ∧
      (embed_texts st now gpuReloadOk batch_size gbs cbs encodeB).encodeCalls =
        [(Device.cuda, bs), (Device.cpu, cbs)] ∧
      (∀ vs, encodeB Device.cpu cbs = ComputeResult.ok vs →
        (embed_texts st now gpuReloadOk batch_size gbs cbs encodeB).result =
          Except.ok vs)) ∧
    (∀ m bs, (batch_size = some bs ∨ (batch_size = none ∧ bs = gbs)) →
      encodeB Device.cuda bs = ComputeResult.otherError m →
      embed_texts st now gpuReloadOk batch_size gbs cbs encodeB =
        ⟨st, Except.error (EmbedError.other m), [(Device.cuda, bs)], 0⟩) := by
  have hretry : maybeRetryGpu st now gpuReloadOk = ⟨st, false, false⟩ := by
    simp [maybeRetryGpu, hacc]
  refine ⟨?_, ?_, ?_, ?_, ?_⟩
  · intro hcuda
    cases hcpu : encode Device.cpu with
    | ok v => simp [embed_text, hretry, hacc, hcuda, hcpu, fallbackToCpu]
    | cudaError => simp [embed_text, hretry, hacc, hcuda, hcpu, fallbackToCpu]
    | otherError m => simp [embed_text, hretry, hacc, hcuda, hcpu, fallbackToCpu]
  · intro v hok
    simp [embed_text, hretry, hacc, hok]
  · intro m herr
    simp [embed_text, hretry, hacc, herr]
  · intro bs hbs hcuda
    rcases hbs with h | ⟨h1, h2⟩
    · cases hcpu : encodeB Device.cpu cbs with
      | ok vs => simp [embed_texts, hretry, hacc, h, hcuda, hcpu, fallbackToCpu]
      | cudaError => simp [embed_texts, hretry, hacc, h, hcuda, hcpu, fallbackToCpu]
      | otherError m => simp [embed_texts, hretry, hacc, h, hcuda, hcpu, fallbackToCpu]
    · subst h2
      cases hcpu : encodeB Device.cpu cbs with
      | ok vs => simp [embed_texts, hretry, hacc, h1, hcuda, hcpu, fallbackToCpu]
      | cudaError => simp [embed_texts, hretry, hacc, h1, hcuda, hcpu, fallbackToCpu]
      | otherError m => simp [embed_texts, hretry, hacc, h1, hcuda, hcpu, fallbackToCpu]
  · intro m bs hbs herr
    rcases hbs with h | ⟨h1, h2⟩
    · simp [embed_texts, hretry, hacc, h, herr]
    · subst h2
      simp [embed_texts, hretry, hacc, h1, herr]

/-- C5 witness: a concrete accelerated-state service whose GPU encode
raises a CUDA error but whose CPU encode succeeds ends on the CPU with
the fallback timestamp recorded, both encode devices exercised, and the
vector delivered to the caller. -/
theorem embed_fallback_retries_once_witness :
    (embed_text ⟨Device.cuda, Device.cuda, 0, true⟩ 100 false
        (fun d => if d = Device.cuda then ComputeResult.cudaError
                  else ComputeResult.ok [1, 2])).state.device = Device.cpu ∧
    (embed_text ⟨Device.cuda, Device.cuda, 0, true⟩ 100 false
        (fun d => if d = Device.cuda then ComputeResult.cudaError
                  else ComputeResult.ok [1, 2])).state.last_fallback_time = 100 ∧
    (embed_text ⟨Device.cuda, Device.cuda, 0, true⟩ 100 false
        (fun d => if d = Device.cuda then ComputeResult.cudaError
                  else ComputeResult.ok [1, 2])).encodeCalls =
      [Device.cuda, Device.cpu] ∧
    (embed_text ⟨Device.cuda, Device.cuda, 0, true⟩ 100 false
        (fun d => if d = Device.cuda then ComputeResult.cudaError
                  else ComputeResult.ok [1, 2])).result = Except.ok [1, 2] := by
  have h := embed_fallback_retries_once ⟨Device.cuda, Device.cuda, 0, true⟩ 100 false
    (fun d => if d = Device.cuda then ComputeResult.cudaError
              else ComputeResult.ok [1, 2])
    (fun _ _ => ComputeResult.ok []) none 8 4 rfl
  have h1 := h.1 (by simp)
  exact ⟨h1.1, h1.2.1, h1.2.2.1, h1.2.2.2.1 [1, 2] (by simp)⟩

/-- C6: while in the CPU fallback state, no GPU reload is attempted by
any call (neither `_maybe_retry_gpu` itself nor `embed_text` /
`embed_texts`, which invoke it) until more than `GPU_RETRY_INTERVAL`
(60 s) has passed since the recorded fallback; once it has, a reload
attempt that succeeds switches the device back to `cuda`, and one that
fails stays on `cpu` and resets the fallback timestamp to the current
time. -/
theorem gpu_retry_interval_gate (st : EmbState) (now : ℚ) (gpuReloadOk : Bool)
    (hfb : st.device = Device.cpu) :
    (now - st.last_fallback_time ≤ GPU_RETRY_INTERVAL →
      maybeRetryGpu st now gpuReloadOk = ⟨st, false, false⟩ ∧
      (∀ encode, (embed_text st now gpuReloadOk encode).gpuReloadAttempts = 0) ∧
      (∀ batch_size gbs cbs encodeB,
        (embed_texts st now gpuReloadOk batch_size gbs cbs encodeB).gpuReloadAttempts = 0)) ∧
    (st.original_device = Device.cuda → st.cuda_available = true →
      GPU_RETRY_INTERVAL < now - st.last_fallback_time →
      (gpuReloadOk = true →
        maybeRetryGpu st now gpuReloadOk = ⟨{ st with device := Device.cuda }, true, true⟩) ∧
      (gpuReloadOk = false →
        maybeRetryGpu st now gpuReloadOk =
          ⟨{ st with last_fallback_time := now }, true, false⟩)) := by
  constructor
  · intro hle
    have hnot : ¬ GPU_RETRY_INTERVAL < now - st.last_fallback_time := not_lt.mpr hle
    have hm : maybeRetryGpu st now gpuReloadOk = ⟨st, false, false⟩ := by
      unfold maybeRetryGpu
      by_cases hg : st.device = Device.cpu ∧ st.original_device = Device.cuda ∧
          st.cuda_available
      · rw [if_pos hg, if_neg hnot]
      · rw [if_neg hg]
    refine ⟨hm, ?_, ?_⟩
    · intro encode
      simp only [embed_text, hm]
      cases h1 : encode st.device with
      | ok v => simp
      | cudaError => cases h2 : encode (fallbackToCpu st now).device <;> simp
      | otherError m => simp
    · intro batch_size gbs cbs encodeB
      simp only [embed_texts, hm]
      cases h1 : encodeB st.device (match batch_size with
          | some b => b
          | none => if st.device = Device.cuda then gbs else cbs) with
      | ok vs => simp
      | cudaError => cases h2 : encodeB (fallbackToCpu st now).device cbs <;> simp
      | otherError m => simp
  · intro horig havail hgt
    constructor
    · intro hok
      simp [maybeRetryGpu, hfb, horig, havail, hgt, hok]
    · intro hko
      simp [maybeRetryGpu, hfb, horig, havail, hgt, hko]

/-- C6 witness: with a fallback recorded at time 100, a call at time 120
attempts no reload; at time 200 a successful reload restores the GPU,
and a failed one stays on the CPU with the timestamp reset to 200. -/
theorem gpu_retry_interval_gate_witness :
    maybeRetryGpu ⟨Device.cpu, Device.cuda, 100, true⟩ 120 true =
      ⟨⟨Device.cpu, Device.cuda, 100, true⟩, false, false⟩ ∧
    maybeRetryGpu ⟨Device.cpu, Device.cuda, 100, true⟩ 200 true =
      ⟨⟨Device.cuda, Device.cuda, 100, true⟩, true, true⟩ ∧
    maybeRetryGpu ⟨Device.cpu, Device.cuda, 100, true⟩ 200 false =
      ⟨⟨Device.cpu, Device.cuda, 200, true⟩, true, false⟩ :=
  ⟨((gpu_retry_interval_gate ⟨Device.cpu, Device.cuda, 100, true⟩ 120 true rfl).1
      (by norm_num [GPU_RETRY_INTERVAL])).1,
   ((gpu_retry_interval_gate ⟨Device.cpu, Device.cuda, 100, true⟩ 200 true rfl).2
      rfl rfl (by norm_num [GPU_RETRY_INTERVAL])).1 rfl,
   ((gpu_retry_interval_gate ⟨Device.cpu, Device.cuda, 100, true⟩ 200 false rfl).2
      rfl rfl (by norm_num [GPU_RETRY_INTERVAL])).2 rfl⟩

/-- An indexed point stored in the Qdrant collection
(`qdrant_connector.py` lines 133-143): generated id, vector, metadata
payload.  Python generates ids with `uuid.uuid4()`; the fresh-identifier
supply is modelled by a counter (`mkUuid`), which captures exactly what
the code relies on: every generated id is new and never equals a
previously stored one. -/
structure Point where
  id : Nat
  vector : List ℚ
  payload : Metadata
deriving DecidableEq, Repr

/-- The fresh point id generated on line 135 (`str(uuid.uuid4())`),
modelled from a counter supply. -/
def mkUuid (n : Nat) : Nat := n

/-- The batches produced by the loop
`for batch_idx in range(0, len(vectors), BATCH_SIZE)` with
`BATCH_SIZE = 1000` (`qdrant_connector.py` lines 125-131): successive
slices of at most 1000 points. -/
def batchesOf : List Point → List (List Point)
  | [] => []
  | x :: xs =>
    (x :: xs).take 1000 :: batchesOf ((x :: xs).drop 1000)
termination_by l => l.length
decreasing_by
  simp only [List.length_drop, List.length_cons]
  omega

/-- Qdrant `upsert` semantics for a single point: replace the stored
point with the same id if one exists, otherwise append. -/
def upsertPoint (store : List Point) (p : Point) : List Point :=
  if store.any (fun q => q.id = p.id) then
    store.map (fun q => if q.id = p.id then p else q)
  else store ++ [p]

/-- One synchronous `client.upsert(..., wait=True)` call for a whole
batch (`qdrant_connector.py` lines 146-150): the caller blocks until
the batch is acknowledged, so the store state seen by the next batch
includes this one. -/
def upsertBatch (store : List Point) (points : List Point) : List Point :=
  points.foldl upsertPoint store

/-- The points built from zipped vectors and metadatas, each with a
fresh id from the supply (`qdrant_connector.py` lines 133-143). -/
def mkPoints (next_uuid : Nat) : List (List ℚ × Metadata) → List Point
  | [] => []
  | (v, m) :: rest => ⟨mkUuid next_uuid, v, m⟩ :: mkPoints (next_uuid + 1) rest

/-- The observable outcome of `QdrantConnector.insert_vectors`: the
store after all upserts, the advanced id supply, the returned inserted
ids, and the batches submitted (in order). -/
structure InsertOutcome where
  store : List Point
  next_uuid : Nat
  inserted_ids : List Nat
  batches : List (List Point)
deriving DecidableEq, Repr

/-- The batch-upsert loop of `insert_vectors` (`qdrant_connector.py`
lines 128-152) with its exception path: `upsertFail i = some e` models
the `i`-th `client.upsert` call raising `e`, in which case the loop
aborts — batches already acknowledged stay in the store, the remaining
ones are never sent — and the exception is re-raised to the caller
(lines 156-159); `upsertFail i = none` models the `i`-th batch being
acknowledged (`wait=True`) before the next is sent. -/
def runBatches (store : List Point) (batches : List (List Point))
    (upsertFail : Nat → Option String) (i : Nat) : Except String (List Point) :=
  match batches with
  | [] => Except.ok store
  | b :: bs =>
    match upsertFail i with
    | some e => Except.error e
    | none => runBatches (upsertBatch store b) bs upsertFail (i + 1)

/-- `QdrantConnector.insert_vectors` (`qdrant_connector.py`
lines 109-159): reject mismatched lengths (`ValueError`, re-raised to
the caller), otherwise assign a fresh id to every point, split the
points into batches of 1000 and upsert each batch synchronously before
the next; any error the client raises during an upsert is re-raised to
the caller (lines 156-159). -/
def insert_vectors (store : List Point) (next_uuid : Nat)
    (vectors : List (List ℚ)) (metadatas : List Metadata)
    (upsertFail : Nat → Option String) :
    Except String InsertOutcome :=
  if vectors.length ≠ metadatas.length then
    Except.error "Vectors and metadatas must have same length"
  else
    let points := mkPoints next_uuid (vectors.zip metadatas)
    let batches := batchesOf points
    match runBatches store batches upsertFail 0 with
    | Except.error e => Except.error e
    | Except.ok store2 =>
      Except.ok
        { store := store2
          next_uuid := next_uuid + points.length
          inserted_ids := points.map Point.id
          batches := batches }

theorem runBatches_none (batches : List (List Point)) :
    ∀ (store : List Point) (i : Nat),
      runBatches store batches (fun _ => none) i =
        Except.ok (batches.foldl upsertBatch store) := by
  induction batches with
  | nil => intro store i; rfl
  | cons b bs ih =>
    intro store i
    simp only [runBatches, List.foldl_cons]
    exact ih (upsertBatch store b) (i + 1)

theorem batchesOf_flatten (l : List Point) : (batchesOf l).flatten = l := by
  induction l using batchesOf.induct with
  | case1 => simp [batchesOf]
  | case2 x xs ih =>
    rw [batchesOf]
    simp only [List.flatten_cons, ih]
    exact List.take_append_drop 1000 (x :: xs)

theorem batchesOf_le (l : List Point) :
    ∀ b ∈ batchesOf l, b.length ≤ 1000 := by
  induction l using batchesOf.induct with
  | case1 => simp [batchesOf]
  | case2 x xs ih =>
    intro b hb
    rw [batchesOf] at hb
    rcases List.mem_cons.mp hb with h | h
    · rw [h]
      simpa using List.length_take_le 1000 (x :: xs)
    · exact ih b h

theorem batchesOf_full (l : List Point) :
    ∀ b ∈ (batchesOf l).dropLast, b.length = 1000 := by
  induction l using batchesOf.induct with
  | case1 => simp [batchesOf]
  | case2 x xs ih =>
    intro b hb
    rw [batchesOf] at hb
    by_cases hd : (x :: xs).drop 1000 = []
    · rw [hd] at hb
      simp [batchesOf] at hb
    · have hne : batchesOf ((x :: xs).drop 1000) ≠ [] := by
        cases he : (x :: xs).drop 1000 with
        | nil => exact absurd he hd
        | cons y ys => rw [batchesOf]; simp
      rw [List.dropLast_cons_of_ne_nil hne] at hb
      rcases List.mem_cons.mp hb with h | h
      · rw [h]
        have hlen : 1000 < (x :: xs).length := by
          by_contra hc
          push_neg at hc
          exact hd (List.drop_eq_nil_of_le hc)
        simp only [List.length_cons] at hlen
        simp only [List.length_take, List.length_cons]
        omega
      · exact ih b h

theorem foldl_upsertBatch (batches : List (List Point)) :
    ∀ store : List Point,
      batches.foldl upsertBatch store = (batches.flatten).foldl upsertPoint store := by
  induction batches with
  | nil => intro store; rfl
  | cons b bs ih =>
    intro store
    simp only [List.foldl_cons, List.flatten_cons, List.foldl_append]
    exact ih (upsertBatch store b)

theorem foldl_upsertPoint_fresh :
    ∀ (l : List (List ℚ × Metadata)) (n : Nat) (store : List Point),
      (∀ p ∈ store, p.id < n) →
      (mkPoints n l).foldl upsertPoint store = store ++ mkPoints n l := by
  intro l
  induction l with
  | nil => intro n store _; simp [mkPoints]
  | cons vm rest ih =>
    intro n store hfresh
    obtain ⟨v, m⟩ := vm
    simp only [mkPoints, List.foldl_cons]
    have hany : store.any (fun q => q.id = (⟨mkUuid n, v, m⟩ : Point).id) = false := by
      rw [List.any_eq_false]
      intro q hq
      simp only [mkUuid, decide_eq_true_eq]
      exact Nat.ne_of_lt (hfresh q hq)
    have hup : upsertPoint store ⟨mkUuid n, v, m⟩ = store ++ [⟨mkUuid n, v, m⟩] := by
      unfold upsertPoint
      rw [hany]
      simp
    rw [hup]
    have hfresh2 : ∀ p ∈ store ++ [(⟨mkUuid n, v, m⟩ : Point)], p.id < n + 1 := by
      intro p hp
      rcases List.mem_append.mp hp with h | h
      · exact Nat.lt_succ_of_lt (hfresh p h)
      · rcases List.mem_singleton.mp h with rfl
        simp [mkUuid]
    rw [ih (n + 1) _ hfresh2]
    simp [mkPoints]

theorem mkPoints_length :
    ∀ (l : List (List ℚ × Metadata)) (n : Nat), (mkPoints n l).length = l.length := by
  intro l
  induction l with
  | nil => intro n; rfl
  | cons vm rest ih =>
    intro n
    obtain ⟨v, m⟩ := vm
    simp [mkPoints, ih]

/-- The metadata used by the concrete insertion scenarios. -/
def exMeta : Metadata := ⟨"doc1", "f.pdf", 0, "chunk text"⟩

/-- C7 counterexample: insertion is not idempotent.  Inserting the
one-vector sequence `[[1]]` into the empty store yields a store with one
point (id 0); inserting the very same sequence again from that state
appends a second point under a fresh id (1), because `insert_vectors`
generates a new `uuid4` for every point on every call — the store after
inserting twice differs from the store after inserting once. -/
theorem insert_vectors_not_idempotent :
    insert_vectors [] 0 [[1]] [exMeta] (fun _ => none) =
      Except.ok ⟨[⟨0, [1], exMeta⟩], 1, [0], [[⟨0, [1], exMeta⟩]]⟩ ∧
    insert_vectors [⟨0, [1], exMeta⟩] 1 [[1]] [exMeta] (fun _ => none) =
      Except.ok ⟨[⟨0, [1], exMeta⟩, ⟨1, [1], exMeta⟩], 2, [1], [[⟨1, [1], exMeta⟩]]⟩ ∧
    ([⟨0, [1], exMeta⟩, ⟨1, [1], exMeta⟩] : List Point) ≠ [⟨0, [1], exMeta⟩] := by
  refine ⟨?_, ?_, by simp⟩
  · simp [insert_vectors, mkPoints, mkUuid, batchesOf, runBatches, upsertBatch,
      upsertPoint]
  · simp [insert_vectors, mkPoints, mkUuid, batchesOf, runBatches, upsertBatch,
      upsertPoint]

/-- C7 amended: `insert_vectors` assigns a fresh identifier to every
point on every call, so (with a fresh id supply) it appends all points
to the store in order — inserting the same vectors twice stores them
twice rather than leaving the state unchanged.  Internally it partitions
the points into successive batches of at most 1000 (every batch but
possibly the last holding exactly 1000), submits the batches in order —
each upsert is synchronous (`wait=True`), so a batch is acknowledged
into the store state seen by the next — and together the batches cover
exactly the generated points.  Stated for a run in which every client
upsert is acknowledged; the failing runs are covered by the error
theorems below. -/
theorem insert_vectors_amended (store : List Point) (next_uuid : Nat)
    (vectors : List (List ℚ)) (metadatas : List Metadata)
    (hlen : vectors.length = metadatas.length)
    (hfresh : ∀ p ∈ store, p.id < next_uuid) :
    insert_vectors store next_uuid vectors metadatas (fun _ => none) =
      Except.ok
        { store := store ++ mkPoints next_uuid (vectors.zip metadatas)
          next_uuid := next_uuid + (vectors.zip metadatas).length
          inserted_ids := (mkPoints next_uuid (vectors.zip metadatas)).map Point.id
          batches := batchesOf (mkPoints next_uuid (vectors.zip metadatas)) } ∧
    (∀ b ∈ batchesOf (mkPoints next_uuid (vectors.zip metadatas)), b.length ≤ 1000) ∧
    (∀ b ∈ (batchesOf (mkPoints next_uuid (vectors.zip metadatas))).dropLast,
      b.length = 1000) ∧
    (batchesOf (mkPoints next_uuid (vectors.zip metadatas))).flatten =
      mkPoints next_uuid (vectors.zip metadatas) := by
  refine ⟨?_, batchesOf_le _, batchesOf_full _, batchesOf_flatten _⟩
  unfold insert_vectors
  rw [if_neg (by omega)]
  have hstore : (batchesOf (mkPoints next_uuid (vectors.zip metadatas))).foldl
      upsertBatch store = store ++ mkPoints next_uuid (vectors.zip metadatas) := by
    rw [foldl_upsertBatch, batchesOf_flatten]
    exact foldl_upsertPoint_fresh (vectors.zip metadatas) next_uuid store hfresh
  simp only [runBatches_none, hstore, mkPoints_length]

/-- C7 amended witness: the amended theorem applied to the concrete
single-vector insertion into the empty store. -/
theorem insert_vectors_amended_witness :
    insert_vectors [] 0 [[1]] [exMeta] (fun _ => none) =
      Except.ok
        { store := [] ++ mkPoints 0 ([[(1 : ℚ)]].zip [exMeta])
          next_uuid := 0 + ([[(1 : ℚ)]].zip [exMeta]).length
          inserted_ids := (mkPoints 0 ([[(1 : ℚ)]].zip [exMeta])).map Point.id
          batches := batchesOf (mkPoints 0 ([[(1 : ℚ)]].zip [exMeta])) } :=
  (insert_vectors_amended [] 0 [[1]] [exMeta] rfl (by simp)).1

/-- `QdrantConnector.search` (`qdrant_connector.py` lines 162-206):
parse the raw client results (id, score, payload) into hit records; any
client exception is logged and re-raised, so it surfaces to the caller.
`clientResult` models the outcome of `self.client.search`. -/
def connectorSearch (clientResult : Except String (List (Nat × ℚ × Metadata))) :
    Except String (List Hit) :=
  match clientResult with
  | Except.error e => Except.error e
  | Except.ok results =>
    Except.ok (results.map (fun r => ⟨r.1, r.2.1, r.2.2⟩))

/-- `QdrantConnector.delete_document` (`qdrant_connector.py`
lines 209-234): delete by document-id filter; any client exception is
logged and re-raised. -/
def delete_document (clientResult : Except String Unit) : Except String Unit :=
  match clientResult with
  | Except.error e => Except.error e
  | Except.ok _ => Except.ok ()

/-- The payload fields `get_indexed_documents` reads from each scrolled
point (`qdrant_connector.py` lines 269-276). -/
structure ScrollPayload where
  document_id : String
  filename : String
  upload_date : String
deriving DecidableEq, Repr

/-- One entry of the `get_indexed_documents` result
(`qdrant_connector.py` lines 272-281). -/
structure DocInfo where
  document_id : String
  filename : String
  upload_date : String
  num_chunks : Nat
  status : String
deriving DecidableEq, Repr

/-- One iteration of the aggregation loop (`qdrant_connector.py`
lines 268-281): `docs` is the insertion-ordered association keyed by
document id; a first-seen id gets a fresh entry with the point's
filename and upload date and `num_chunks = 0`, then the chunk count of
the id's entry is incremented. -/
def bumpChunks (docs : List DocInfo) (p : ScrollPayload) : List DocInfo :=
  let docs' :=
    if docs.any (fun d => d.document_id = p.document_id) then docs
    else docs ++ [⟨p.document_id, p.filename, p.upload_date, 0, "indexed"⟩]
  docs'.map (fun d =>
    if d.document_id = p.document_id then { d with num_chunks := d.num_chunks + 1 }
    else d)

/-- `QdrantConnector.get_indexed_documents` (`qdrant_connector.py`
lines 237-292): page through all points and aggregate chunk counts by
document id; `scroll` models the outcome of the full pagination loop.
Any exception is CAUGHT (lines 290-292) and the empty list is returned
instead. -/
def get_indexed_documents (scroll : Except String (List ScrollPayload)) :
    List DocInfo :=
  match scroll with
  | Except.error _ => []
  | Except.ok points => points.foldl bumpChunks []

/-- The value returned by `QdrantConnector.get_stats`: either the
normal statistics record or the `{"status": "error", "message": ...}`
record built in the exception handler. -/
inductive StatsResult where
  | stats (collection_name : String) (num_vectors : Nat) (vector_size : Nat)
      (status : String)
  | errorDict (status : String) (message : String)
deriving DecidableEq, Repr

/-- `QdrantConnector.get_stats` (`qdrant_connector.py` lines 295-312):
report the collection name (`rag_documents`), point count, vector size
(1024) and health; any exception is CAUGHT (lines 310-312) and a
status-error record is returned instead.  `clientResult` models
`self.client.get_collection(...)`, reduced to its `points_count`. -/
def get_stats (clientResult : Except String Nat) (connected : Bool) : StatsResult :=
  match clientResult with
  | Except.ok points_count =>
    StatsResult.stats "rag_documents" points_count 1024
      (if connected then "healthy" else "disconnected")
  | Except.error e => StatsResult.errorDict "error" e

/-- C8 counterexample: two of the store operations swallow store errors
instead of surfacing them.  When the underlying client raises
"connection refused", `get_indexed_documents` returns the empty list —
the very value a successful scroll of an empty collection returns — and
`get_stats` returns an ordinary status-error record rather than raising. -/
theorem connector_swallows_errors :
    get_indexed_documents (Except.error "connection refused") = [] ∧
    get_indexed_documents (Except.ok []) = [] ∧
    get_stats (Except.error "connection refused") false =
      StatsResult.errorDict "error" "connection refused" :=
  ⟨rfl, rfl, rfl⟩

/-- C8 amended: every operation is attempted exactly once with no
internal retry, but the error behaviour differs per operation: `search`,
`deleteByDocument` and `insert` re-raise the underlying store error to
the caller (`insert` additionally raises its length-mismatch
`ValueError`), while `listDocuments` catches any store error and
returns the empty list and `stats` catches any store error and returns
a status-error record.  For `insert` the store-error conjunct says: on
any non-empty, length-matched input whose first `client.upsert` call
raises, the very same error reaches the caller. -/
theorem connector_error_surfacing (e : String) (connected : Bool)
    (store : List Point) (next_uuid : Nat)
    (vectors : List (List ℚ)) (metadatas : List Metadata)
    (upsertFail : Nat → Option String)
    (v0 : List ℚ) (vs : List (List ℚ)) (m0 : Metadata) (ms : List Metadata)
    (f0 : Nat → Option String)
    (hne : vectors.length ≠ metadatas.length)
    (hlen0 : (v0 :: vs).length = (m0 :: ms).length)
    (hf0 : f0 0 = some e) :
    connectorSearch (Except.error e) = Except.error e ∧
    delete_document (Except.error e) = Except.error e ∧
    get_indexed_documents (Except.error e) = [] ∧
    get_stats (Except.error e) connected = StatsResult.errorDict "error" e ∧
    insert_vectors store next_uuid (v0 :: vs) (m0 :: ms) f0 = Except.error e ∧
    insert_vectors store next_uuid vectors metadatas upsertFail =
      Except.error "Vectors and metadatas must have same length" := by
  refine ⟨rfl, rfl, rfl, rfl, ?_, ?_⟩
  · unfold insert_vectors
    rw [if_neg (by omega)]
    simp only [List.zip_cons_cons, mkPoints]
    rw [batchesOf]
    simp only [runBatches, hf0]
  · unfold insert_vectors
    rw [if_pos hne]

/-- C8 amended witness: the amended theorem at a concrete error string,
a concrete one-point insertion whose first upsert raises, and a
concrete mismatched insertion. -/
theorem connector_error_surfacing_witness :
    connectorSearch (Except.error "boom") = Except.error "boom" ∧
    delete_document (Except.error "boom") = Except.error "boom" ∧
    get_indexed_documents (Except.error "boom") = [] ∧
    get_stats (Except.error "boom") true = StatsResult.errorDict "error" "boom" ∧
    insert_vectors [] 0 [[1]] [exMeta] (fun _ => some "boom") =
      Except.error "boom" ∧
    insert_vectors [] 0 [[1]] [] (fun _ => none) =
      Except.error "Vectors and metadatas must have same length" :=
  connector_error_surfacing "boom" true [] 0 [[1]] [] (fun _ => none)
    [1] [] exMeta [] (fun _ => some "boom") (by simp) rfl rfl
